import Mathlib

/-!
Verification of the zygisk injection / companion-daemon subsystem
(`src/native/src/zygisk/main.cpp`).

C strings are embedded as `List Char`: the list holds the bytes strictly
before the first NUL terminator, so a string that is not NUL-terminated
within the kernel bound appears as a list of length ≥ `MAX_ENV_LEN`.  An
environment block (`char **environ`) is a `List (List Char)`: the list
end stands for the NULL sentinel pointer.
-/

set_option autoImplicit false

namespace Zygisk

/-- Kernel bound on one environment definition: `32*4096` bytes
(`MAX_ENV_LEN` in `is_valid_environment_variable`). -/
def MAX_ENV_LEN : Nat := 32 * 4096

/-- The scanning loop of `is_valid_environment_variable`: walks the string
while `pos < MAX_ENV_LEN`, stopping at the terminator (= list end),
recording the index of the first `'='`.  Returns the final `pos` and the
first-equal position (`none` for the C sentinel `-1`). -/
def envScan : List Char → Nat → Nat × Option Nat
  | [], pos => (pos, none)
  | c :: rest, pos =>
    if MAX_ENV_LEN ≤ pos then (pos, none)
    else
      let r := envScan rest (pos + 1)
      (r.1, if c = '=' then some pos else r.2)

/-- `is_valid_environment_variable` from `main.cpp`: rejects strings that do
not terminate within `MAX_ENV_LEN` (`pos >= MAX_ENV_LEN`) and strings whose
first `'='` is absent or at index 0 (`first_equal_pos < 1`).  The C
null-pointer guard has no counterpart: every list is a present string. -/
def is_valid_environment_variable (name : List Char) : Bool :=
  let r := envScan name 0
  if MAX_ENV_LEN ≤ r.1 then false
  else
    match r.2 with
    | none => false
    | some p => decide (1 ≤ p)

/-- `env_match` from `main.cpp`: advances while the two strings agree and
`name` is not exhausted; succeeds returning the value suffix exactly when
`name` ran out and the environment string continues with `'='`. -/
def env_match : List Char → List Char → Option (List Char)
  | envstr, [] =>
    match envstr with
    | c :: rest => if c = '=' then some rest else none
    | [] => none
  | [], _ :: _ => none
  | e :: es, n :: ns => if e = n then env_match es ns else none

/-- `UNSAFE_VARIABLE_NAMES` from `main.cpp`, in source order.
`LD_PRELOAD` is commented out in the source and hence absent here. -/
def UNSAFE_VARIABLE_NAMES : List (List Char) :=
  [ "ANDROID_DNS_MODE".toList,
    "GCONV_PATH".toList,
    "GETCONF_DIR".toList,
    "HOSTALIASES".toList,
    "JE_MALLOC_CONF".toList,
    "LD_AOUT_LIBRARY_PATH".toList,
    "LD_AOUT_PRELOAD".toList,
    "LD_AUDIT".toList,
    "LD_CONFIG_FILE".toList,
    "LD_DEBUG".toList,
    "LD_DEBUG_OUTPUT".toList,
    "LD_DYNAMIC_WEAK".toList,
    "LD_LIBRARY_PATH".toList,
    "LD_ORIGIN_PATH".toList,
    "LD_PROFILE".toList,
    "LD_SHOW_AUXV".toList,
    "LD_USE_LOAD_BIAS".toList,
    "LIBC_DEBUG_MALLOC_OPTIONS".toList,
    "LIBC_HOOKS_ENABLE".toList,
    "LOCALDOMAIN".toList,
    "LOCPATH".toList,
    "MALLOC_CHECK_".toList,
    "MALLOC_CONF".toList,
    "MALLOC_TRACE".toList,
    "NIS_PATH".toList,
    "NLSPATH".toList,
    "RESOLV_HOST_CONF".toList,
    "RES_OPTIONS".toList,
    "SCUDO_OPTIONS".toList,
    "TMPDIR".toList,
    "TZDIR".toList ]

/-- `is_unsafe_environment_variable` from `main.cpp`: true when some
deny-listed name `env_match`es the entry. -/
def is_unsafe_environment_variable (name : List Char) : Bool :=
  UNSAFE_VARIABLE_NAMES.any fun n => (env_match name n).isSome

/-- `sanitize_environment_variables` from `main.cpp`: the `src`/`dst`
compaction loop.  Each entry is judged independently; invalid and unsafe
entries are skipped, surviving pointers are written back in order.  The
final NULL sentinel store is the list end. -/
def sanitize_environment_variables : List (List Char) → List (List Char)
  | [] => []
  | s :: rest =>
    if !is_valid_environment_variable s then sanitize_environment_variables rest
    else if is_unsafe_environment_variable s then sanitize_environment_variables rest
    else s :: sanitize_environment_variables rest

/-- The substring of an entry strictly before its first `'='` — the
variable name the deny list is compared against. -/
def env_name (s : List Char) : List Char := s.takeWhile fun c => c ≠ '='

/-- Models the libc `getenv` used at `main.cpp:199`: first entry whose name
part matches, returning the value suffix.  Matching is `env_match`, exactly
the comparison bionic/glibc perform. -/
def getenv_model : List (List Char) → List Char → Option (List Char)
  | [], _ => none
  | s :: rest, name =>
    match env_match s name with
    | some v => some v
    | none => getenv_model rest name

/-- Models the libc `setenv(name, value, 1)` used at `main.cpp:203-207`:
replaces the first entry whose name matches, otherwise appends. -/
def setenv_model : List (List Char) → List Char → List Char → List (List Char)
  | [], name, value => [name ++ '=' :: value]
  | s :: rest, name, value =>
    if (env_match s name).isSome then (name ++ '=' :: value) :: rest
    else s :: setenv_model rest name value

/-- The `LD_PRELOAD` variable name. -/
def ldPreloadName : List Char := "LD_PRELOAD".toList

/-- The `LD_PRELOAD` value installed by `app_process_main:199-206`:
existing value with `':'` and the hijack library path appended, or the
hijack path alone when the variable was unset. -/
def ld_preload_value (env0 : List (List Char)) (hijack : List Char) : List Char :=
  match getenv_model env0 ldPreloadName with
  | some old => old ++ ':' :: hijack
  | none => hijack

/-- One data-transfer operation on a connection, seen from the process
running this code.  `writeInt`/`sendBytes`/`sendFd` are writes by the
process; `readInt`/`recvBytes`/`recvFd`/`readStr` are reads by the
process (i.e. data sent by the peer).  `readStr` is the length-prefixed
string read (`read_string`). -/
inductive Event where
  | readInt (v : Int)
  | writeInt (v : Int)
  | sendBytes (n : Nat)
  | recvBytes (n : Nat)
  | recvFd (fd : Int)
  | sendFd (fd : Int)
  | readStr (s : List Char)
deriving DecidableEq, Repr

/-- Terminal action of the pool-manager branch of `app_process_main`. -/
inductive FinalAction where
  /-- `fexecve(app_proc_fd, argv, environ)` with the given environment
  (`main.cpp:214`); the context write to `/proc/self/attr/current`
  precedes it on this path. -/
  | fexecve (fd : Int) (env : List (List Char))
  /-- The fallback at `main.cpp:221-223`: `xreadlink("/proc/self/exe")`,
  `xumount2("/proc/self/exe", MNT_DETACH)` (result ignored), then
  `execve` of the own on-disk image with original `argv` and the given
  environment. -/
  | selfReexec (env : List (List Char))
deriving DecidableEq, Repr

/-- Outcome of the externally observable interactions on the SETUP
connection: result of `zygisk_request`, the status integer the daemon
answers, the result of `recv_fd`, the runtime directory string, and
whether the `MNT_DETACH` unmount in the fallback would fail (no overlay
mounted) — the code ignores that result. -/
structure SetupConn where
  socket : Int
  status : Int
  appProcFd : Int
  runtimeDir : List Char
  umountFails : Bool
deriving DecidableEq, Repr

/-- Shallow embedding of the pool-manager branch of `app_process_main`
(`main.cpp:185-224`), parameterised by `sizeof(zygisk_ld)` and the
`HIJACK_BIN` / `MAGISKTMP_ENV` constants (defined outside this
repository).  Returns the event trace on the daemon socket and the
terminal action. -/
def app_process_setup (ldSize : Nat) (hijack tmpName : List Char)
    (env0 : List (List Char)) (c : SetupConn) : List Event × FinalAction :=
  if c.socket < 0 then ([], .selfReexec env0)
  else if c.status ≠ 0 then ([.readInt c.status], .selfReexec env0)
  else if c.appProcFd < 0 then
    ([.readInt c.status, .writeInt ldSize, .sendBytes ldSize], .selfReexec env0)
  else
    let env1 := setenv_model env0 ldPreloadName (ld_preload_value env0 hijack)
    let env2 := setenv_model env1 tmpName c.runtimeDir
    ([.readInt c.status, .writeInt ldSize, .sendBytes ldSize,
      .recvFd c.appProcFd, .readStr c.runtimeDir],
     .fexecve c.appProcFd (sanitize_environment_variables env2))

/-- The exchange shape asserted by claim C1: after status 0, a
length-prefixed loader payload *sent by the daemon* (so read/received by
the process), then a passed descriptor, then the runtime path string. -/
def ClaimedSetupExchange (t : List Event) : Prop :=
  ∃ (n : Nat) (fd : Int) (p : List Char),
    t = [.readInt 0, .readInt (n : Int), .recvBytes n, .recvFd fd, .readStr p]

/-- Outcome of the externally observable interactions of the passthrough
helper (`zygisk_main`, `passthrough` branch): whether
`fcntl(client, F_GETFD)` succeeded, the result of `connect_daemon`, the
status the daemon answers, and the descriptor `recv_fd` returns. -/
structure PassthroughConn where
  clientValid : Bool
  magiskd : Int
  status : Int
  realAppFd : Int
deriving DecidableEq, Repr

/-- Shallow embedding of the passthrough branch of `zygisk_main`
(`main.cpp:308-328`), parameterised by the numeric value of
`ZygiskRequest::PASSTHROUGH` (declared outside this repository).
Returns the event traces on the daemon connection and on the client
descriptor. -/
def zygisk_passthrough (ptCode : Int) (is64 : Int) (c : PassthroughConn) :
    List Event × List Event :=
  if c.clientValid = false then ([], [])
  else if c.magiskd < 0 then ([], [.writeInt 1])
  else if c.status ≠ 0 then
    ([.writeInt ptCode, .writeInt is64, .readInt c.status], [.writeInt 1])
  else
    ([.writeInt ptCode, .writeInt is64, .readInt c.status, .recvFd c.realAppFd],
     [.writeInt 0, .sendFd c.realAppFd])

/-- Observable facts about one module file descriptor received by
`zygiskd` at startup: whether `fstat` succeeded and reported a regular
file, whether `android_dlopen_ext` succeeded, and whether `dlsym`
resolved `zygisk_companion_entry`. -/
structure ModuleFd where
  isReg : Bool
  dlopenOk : Bool
  hasEntry : Bool
deriving DecidableEq, Repr

/-- Loading of one module in `zygiskd` (`main.cpp:244-259`): the slot is
populated (`true`) exactly when the descriptor is a regular file, the
dynamic load succeeded, and the entry symbol resolved; any failure
leaves `entry == nullptr` (`false`) and the loop continues. -/
def load_module (m : ModuleFd) : Bool :=
  if m.isReg then
    if m.dlopenOk then m.hasEntry else false
  else false

/-- Startup of `zygiskd` (`main.cpp:227-264`): the authentication gate
(`getuid() != 0 || fcntl(socket, F_GETFD) < 0` → `exit(-1)`, modelled as
`none`, no response written), then registry construction over the
received batch, then the single `write_int(socket, 0)` acknowledgment.
`some (registry, ack)` means: registry fully built first, ack written
after, service loop entered next. -/
def zygiskd_startup (uid : Nat) (socketValid : Bool) (fds : List ModuleFd) :
    Option (List Bool × Int) :=
  if uid ≠ 0 ∨ socketValid = false then none
  else some (fds.map load_module, 0)

/-- One service-loop dispatch in `zygiskd` (`main.cpp:279-297`): given the
registry, the received client descriptor and the module id read from it,
returns the list of companion entry-point invocations (module index,
client descriptor) performed by the dispatched task, and whether the
loop closed the client immediately instead. -/
def zygiskd_dispatch (registry : List Bool) (client : Int) (module_id : Int) :
    List (Nat × Int) × Bool :=
  if 0 ≤ module_id ∧ module_id.toNat < registry.length ∧
      registry.getD module_id.toNat false = true then
    ([(module_id.toNat, client)], false)
  else
    ([], true)

/-- `st_dev`/`st_ino` identity of a descriptor as sampled by `fstat`. -/
structure FdIdentity where
  st_dev : Nat
  st_ino : Nat
deriving DecidableEq, Repr

/-- The post-entry close decision of a dispatched companion task
(`main.cpp:282-293`): `s1` is the identity snapshot taken before the
entry point ran; `s2` is the re-queried identity after it returned
(`none` when the second `fstat` failed, e.g. the descriptor is closed).
Returns whether `close(client)` is executed. -/
def companion_task_close (s1 : FdIdentity) (s2 : Option FdIdentity) : Bool :=
  match s2 with
  | none => false
  | some s => s1.st_dev = s.st_dev && s1.st_ino = s.st_ino

/-- Index of the first `'='` in a string, `none` when absent: the
reference value `envScan` computes when no truncation occurs. -/
def firstEqIdx : List Char → Option Nat
  | [] => none
  | c :: rest => if c = '=' then some 0 else (firstEqIdx rest).map (· + 1)

lemma envScan_fst_ge (l : List Char) (pos : Nat)
    (h : MAX_ENV_LEN ≤ pos + l.length) : MAX_ENV_LEN ≤ (envScan l pos).1 := by
  induction l generalizing pos with
  | nil =>
    simp only [envScan]
    simp only [List.length_nil] at h
    omega
  | cons c rest ih =>
    by_cases hp : MAX_ENV_LEN ≤ pos
    · simp [envScan, hp]
    · have := ih (pos + 1) (by simpa [Nat.add_right_comm] using h)
      simpa [envScan, hp] using this

lemma envScan_eq_of_le (l : List Char) (pos : Nat)
    (h : pos + l.length ≤ MAX_ENV_LEN) :
    envScan l pos = (pos + l.length, (firstEqIdx l).map (· + pos)) := by
  induction l generalizing pos with
  | nil => simp [envScan, firstEqIdx]
  | cons c rest ih =>
    have hp : ¬ MAX_ENV_LEN ≤ pos := by
      simp only [List.length_cons] at h; omega
    have hrec := ih (pos + 1) (by simp only [List.length_cons] at h ⊢; omega)
    by_cases hc : c = '='
    · simp [envScan, hp, hrec, hc, firstEqIdx]
      omega
    · simp [envScan, hp, hrec, hc, firstEqIdx, Option.map_map]
      constructor
      · omega
      · congr 1
        funext q
        simp [Function.comp]
        omega

lemma firstEqIdx_eq_none_iff (l : List Char) :
    firstEqIdx l = none ↔ '=' ∉ l := by
  induction l with
  | nil => simp [firstEqIdx]
  | cons c rest ih =>
    by_cases hc : c = '='
    · simp [firstEqIdx, hc]
    · simp [firstEqIdx, hc, ih, Ne.symm hc]

lemma firstEqIdx_pos_iff (l : List Char) :
    (∃ q, firstEqIdx l = some q ∧ 1 ≤ q) ↔ (l.head? ≠ some '=' ∧ '=' ∈ l) := by
  cases l with
  | nil => simp [firstEqIdx]
  | cons c rest =>
    by_cases hc : c = '='
    · simp [firstEqIdx, hc]
    · simp only [firstEqIdx, if_neg hc, List.head?_cons, List.mem_cons]
      constructor
      · rintro ⟨q, hq, _⟩
        rcases Option.map_eq_some'.mp hq with ⟨q', hq', rfl⟩
        refine ⟨by simp [hc], Or.inr ?_⟩
        have : firstEqIdx rest ≠ none := by simp [hq']
        exact not_not.mp (fun hmem => this ((firstEqIdx_eq_none_iff rest).mpr hmem))
      · rintro ⟨-, hmem⟩
        have hmem' : '=' ∈ rest := by
          rcases hmem with h | h
          · exact absurd h.symm hc
          · exact h
        have : firstEqIdx rest ≠ none := fun hn =>
          ((firstEqIdx_eq_none_iff rest).mp hn) hmem'
        rcases Option.ne_none_iff_exists'.mp this with ⟨q', hq'⟩
        exact ⟨q' + 1, by simp [hq'], by omega⟩

/-- Characterization of `is_valid_environment_variable`: terminates within
the bound, does not start with `'='`, and contains an `'='`. -/
lemma is_valid_iff (s : List Char) :
    is_valid_environment_variable s = true ↔
      s.length < MAX_ENV_LEN ∧ s.head? ≠ some '=' ∧ '=' ∈ s := by
  by_cases hlen : s.length < MAX_ENV_LEN
  · have h0 : (0 : Nat) + s.length ≤ MAX_ENV_LEN := by omega
    rw [is_valid_environment_variable, envScan_eq_of_le s 0 h0]
    rcases hq : firstEqIdx s with - | q
    · simp only [hq, Option.map_none]
      simp only [Nat.zero_add, if_neg (by omega : ¬ MAX_ENV_LEN ≤ s.length)]
      have : '=' ∉ s := (firstEqIdx_eq_none_iff s).mp hq
      simp [this, hlen]
    · simp only [hq, Option.map_some, Nat.zero_add,
        if_neg (by omega : ¬ MAX_ENV_LEN ≤ s.length)]
      have hiff := firstEqIdx_pos_iff s
      constructor
      · intro h
        have hk : 1 ≤ q := by simpa using h
        exact ⟨hlen, (hiff.mp ⟨q, hq, hk⟩).1, (hiff.mp ⟨q, hq, hk⟩).2⟩
      · rintro ⟨-, h1, h2⟩
        rcases hiff.mpr ⟨h1, h2⟩ with ⟨q', hq', hk'⟩
        rw [hq] at hq'
        cases hq'
        simpa using hk'
  · have hge := envScan_fst_ge s 0 (by omega)
    rw [is_valid_environment_variable]
    simp only [if_pos hge]
    exact iff_of_false (by simp) (fun h => hlen h.1)

/-- `env_match` succeeds exactly on entries of the shape `name=value`. -/
lemma env_match_eq_some (s n v : List Char) :
    env_match s n = some v ↔ s = n ++ '=' :: v := by
  induction n generalizing s with
  | nil =>
    cases s with
    | nil => simp [env_match]
    | cons c cs =>
      by_cases hc : c = '='
      · subst hc
        simp [env_match]
      · simp [env_match, hc, Ne.symm hc]
  | cons m ms ih =>
    cases s with
    | nil => simp [env_match]
    | cons e es =>
      by_cases he : e = m
      · subst he
        simp [env_match, ih]
      · simp [env_match, he]

lemma env_match_isSome (s n : List Char) :
    (env_match s n).isSome = true ↔ ∃ v, s = n ++ '=' :: v := by
  rw [Option.isSome_iff_exists]
  constructor
  · rintro ⟨v, hv⟩
    exact ⟨v, (env_match_eq_some s n v).mp hv⟩
  · rintro ⟨v, hv⟩
    exact ⟨v, (env_match_eq_some s n v).mpr hv⟩

/-- If a name contains no `'='`, the name part of `name=value` is the name. -/
lemma env_name_append (n v : List Char) (hn : '=' ∉ n) :
    env_name (n ++ '=' :: v) = n := by
  induction n with
  | nil => simp [env_name]
  | cons c cs ih =>
    have hc : c ≠ '=' := fun h => hn (by simp [h])
    have hcs : '=' ∉ cs := fun h => hn (by simp [h])
    simp only [List.cons_append, env_name, List.takeWhile_cons, decide_eq_true_eq]
    rw [if_pos hc]
    have := ih hcs
    simp only [env_name] at this
    rw [this]

/-- Splitting a string at its first `'='`. -/
lemma env_name_split (s : List Char) (h : '=' ∈ s) :
    s = env_name s ++ '=' :: (s.dropWhile fun c => decide (c ≠ '=')).tail := by
  induction s with
  | nil => cases h
  | cons c cs ih =>
    by_cases hc : c = '='
    · subst hc
      simp [env_name, List.takeWhile_cons, List.dropWhile_cons]
    · have hcs : '=' ∈ cs := by
        rcases List.mem_cons.mp h with h1 | h1
        · exact absurd h1.symm hc
        · exact h1
      have := ih hcs
      simp only [env_name, List.takeWhile_cons, List.dropWhile_cons,
        decide_eq_true_eq, if_pos hc, List.cons_append]
      simp only [env_name] at this
      exact congrArg (c :: ·) this

/-- No deny-listed name contains `'='`. -/
lemma unsafe_names_no_eq : ∀ n ∈ UNSAFE_VARIABLE_NAMES, '=' ∉ n := by decide

/-- For an entry containing `'='`, the deny-list verdict is exactly
membership of its name part in the deny list. -/
lemma is_unsafe_iff_name (s : List Char) (h : '=' ∈ s) :
    is_unsafe_environment_variable s = true ↔
      env_name s ∈ UNSAFE_VARIABLE_NAMES := by
  rw [is_unsafe_environment_variable, List.any_eq_true]
  constructor
  · rintro ⟨n, hn, hm⟩
    rcases (env_match_isSome s n).mp hm with ⟨v, rfl⟩
    rw [env_name_append n v (unsafe_names_no_eq n hn)]
    exact hn
  · intro hn
    refine ⟨env_name s, hn, ?_⟩
    rw [env_match_isSome]
    exact ⟨_, env_name_split s h⟩

/-- The compaction loop is precisely a filter by validity and safety. -/
lemma sanitize_eq_filter (env : List (List Char)) :
    sanitize_environment_variables env =
      env.filter fun s =>
        is_valid_environment_variable s && !is_unsafe_environment_variable s := by
  induction env with
  | nil => rfl
  | cons s rest ih =>
    rcases hv : is_valid_environment_variable s with - | -
    · simp [sanitize_environment_variables, hv, List.filter, ih]
    · rcases hu : is_unsafe_environment_variable s with - | -
      · simp [sanitize_environment_variables, hv, hu, List.filter, ih]
      · simp [sanitize_environment_variables, hv, hu, List.filter, ih]

lemma setenv_mem (env : List (List Char)) (name v : List Char) :
    (name ++ '=' :: v) ∈ setenv_model env name v := by
  induction env with
  | nil => simp [setenv_model]
  | cons s rest ih =>
    rcases hm : (env_match s name).isSome with - | -
    · simp only [setenv_model, hm, Bool.false_eq_true, if_false, List.mem_cons]
      exact Or.inr ih
    · simp [setenv_model, hm]

lemma setenv_mem_of_no_match (env : List (List Char)) (name v s : List Char)
    (hs : s ∈ env) (hnm : env_match s name = none) :
    s ∈ setenv_model env name v := by
  induction env with
  | nil => cases hs
  | cons t rest ih =>
    rcases List.mem_cons.mp hs with rfl | hs'
    · have hfalse : (env_match s name).isSome = false := by simp [hnm]
      simp [setenv_model, hfalse]
    · rcases hm : (env_match t name).isSome with - | -
      · simp only [setenv_model, hm, Bool.false_eq_true, if_false, List.mem_cons]
        exact Or.inr (ih hs')
      · simp only [setenv_model, hm, if_true, List.mem_cons]
        exact Or.inr hs'

/-- Two `'='`-free names producing the same entry are equal. -/
lemma entry_names_eq (a b u v : List Char) (ha : '=' ∉ a) (hb : '=' ∉ b)
    (h : a ++ '=' :: u = b ++ '=' :: v) : a = b := by
  have := congrArg env_name h
  rwa [env_name_append a u ha, env_name_append b v hb] at this

/-- C2: for every well-formed environment entry, sanitization removes the
entry if and only if the substring before its first `'='` is exactly
(case-sensitively, byte for byte) one of the deny-listed names, regardless
of the value; entries whose name is in a strict-prefix relation with a
deny-listed name in either direction are retained. -/
theorem sanitize_removes_iff_denylisted (env : List (List Char)) (s : List Char)
    (hmem : s ∈ env) (hval : is_valid_environment_variable s = true) :
    s ∉ sanitize_environment_variables env ↔
      env_name s ∈ UNSAFE_VARIABLE_NAMES := by
  have hin : '=' ∈ s := ((is_valid_iff s).mp hval).2.2
  rw [sanitize_eq_filter, ← is_unsafe_iff_name s hin]
  simp [List.mem_filter, hmem, hval]

/-- Witness for C2: `LD_LIBRARY_PATH=/x` is removed (name deny-listed),
`LD_LIBRARY_PATHOLOGY=1` is retained (deny-listed name only as a strict
prefix of its name). -/
theorem sanitize_removes_iff_denylisted_witness :
    ("LD_LIBRARY_PATH=/x".toList ∉
        sanitize_environment_variables
          ["LD_LIBRARY_PATH=/x".toList, "LD_LIBRARY_PATHOLOGY=1".toList] ↔
      env_name "LD_LIBRARY_PATH=/x".toList ∈ UNSAFE_VARIABLE_NAMES) ∧
    ("LD_LIBRARY_PATHOLOGY=1".toList ∉
        sanitize_environment_variables
          ["LD_LIBRARY_PATH=/x".toList, "LD_LIBRARY_PATHOLOGY=1".toList] ↔
      env_name "LD_LIBRARY_PATHOLOGY=1".toList ∈ UNSAFE_VARIABLE_NAMES) :=
  ⟨sanitize_removes_iff_denylisted _ _ (by decide) (by decide),
   sanitize_removes_iff_denylisted _ _ (by decide) (by decide)⟩

/-- C3: sanitization is exactly an order-preserving, identity-preserving,
independent-per-entry filter (so entries after a bad one still survive,
and the survivors end at the list-end null sentinel), and any entry
missing `'='`, starting with `'='`, or not terminating within the
32-page bound is removed. -/
theorem sanitize_wellformedness (env : List (List Char)) :
    sanitize_environment_variables env =
      env.filter (fun s =>
        is_valid_environment_variable s && !is_unsafe_environment_variable s) ∧
    ∀ s ∈ env, ('=' ∉ s ∨ s.head? = some '=' ∨ MAX_ENV_LEN ≤ s.length) →
      s ∉ sanitize_environment_variables env := by
  refine ⟨sanitize_eq_filter env, ?_⟩
  intro s _ hbad hmem
  rw [sanitize_eq_filter, List.mem_filter] at hmem
  have hval : is_valid_environment_variable s = true :=
    (Bool.and_eq_true_iff.mp hmem.2).1
  rcases (is_valid_iff s).mp hval with ⟨h1, h2, h3⟩
  rcases hbad with hb | hb | hb
  · exact hb h3
  · exact h2 hb
  · omega

/-- Witness for C3: an entry with no `'='` and an entry whose `'='` is at
index 0 are both removed; the well-formed safe entry after them survives. -/
theorem sanitize_wellformedness_witness :
    "NOEQ".toList ∉
      sanitize_environment_variables ["NOEQ".toList, "A=1".toList] ∧
    "=v".toList ∉
      sanitize_environment_variables ["=v".toList, "A=1".toList] ∧
    sanitize_environment_variables ["NOEQ".toList, "=v".toList, "A=1".toList] =
      ["A=1".toList] :=
  ⟨(sanitize_wellformedness _).2 _ (by decide) (Or.inl (by decide)),
   (sanitize_wellformedness _).2 _ (by decide) (Or.inr (Or.inl rfl)),
   by decide⟩

/-- C4: after a companion entry point returns, the daemon closes the client
descriptor iff the re-queried device+inode identity exactly equals the
snapshot taken before the invocation; in particular a descriptor number
reused by an unrelated connection (different identity) is never closed. -/
theorem companion_close_iff_identity (s1 : FdIdentity) (s2 : Option FdIdentity) :
    companion_task_close s1 s2 = true ↔ s2 = some s1 := by
  cases s2 with
  | none => simp [companion_task_close]
  | some s =>
    obtain ⟨d1, i1⟩ := s1
    obtain ⟨d2, i2⟩ := s
    simp only [companion_task_close, Bool.and_eq_true, decide_eq_true_eq,
      Option.some.injEq, FdIdentity.mk.injEq]
    constructor
    · rintro ⟨h1, h2⟩
      exact ⟨h1.symm, h2.symm⟩
    · rintro ⟨h1, h2⟩
      exact ⟨h1.symm, h2.symm⟩

/-- C5: a module id that is negative, out of range, or indexing an empty
slot makes the service loop close the client at once with no task and no
entry-point invocation; a populated slot yields exactly one invocation of
exactly that module's entry point with the client descriptor, and no
immediate close. -/
theorem dispatch_cases (registry : List Bool) (client module_id : Int) :
    ((module_id < 0 ∨ (registry.length : Int) ≤ module_id ∨
        registry.getD module_id.toNat false = false) →
      zygiskd_dispatch registry client module_id = ([], true)) ∧
    ((0 ≤ module_id ∧ module_id.toNat < registry.length ∧
        registry.getD module_id.toNat false = true) →
      zygiskd_dispatch registry client module_id =
        ([(module_id.toNat, client)], false)) := by
  constructor
  · intro h
    rw [zygiskd_dispatch, if_neg]
    rintro ⟨h0, hlt, hslot⟩
    rcases h with h | h | h
    · omega
    · omega
    · rw [h] at hslot
      exact Bool.false_ne_true hslot
  · intro h
    rw [zygiskd_dispatch, if_pos h]

/-- Witness for C5: registry `[true, false]`; id 1 (empty slot) and id 5
(out of range) close the client with no task, id 0 dispatches exactly one
invocation of module 0 with the client descriptor. -/
theorem dispatch_cases_witness :
    zygiskd_dispatch [true, false] 7 1 = ([], true) ∧
    zygiskd_dispatch [true, false] 7 5 = ([], true) ∧
    zygiskd_dispatch [true, false] 7 (-1) = ([], true) ∧
    zygiskd_dispatch [true, false] 7 0 = ([(0, 7)], false) :=
  ⟨(dispatch_cases [true, false] 7 1).1 (Or.inr (Or.inr (by decide))),
   (dispatch_cases [true, false] 7 5).1 (Or.inr (Or.inl (by decide))),
   (dispatch_cases [true, false] 7 (-1)).1 (Or.inl (by decide)),
   (dispatch_cases [true, false] 7 0).2 (by refine ⟨by decide, by decide, by decide⟩)⟩

lemma load_module_eq_true_iff (m : ModuleFd) :
    load_module m = true ↔
      (m.isReg = true ∧ m.dlopenOk = true ∧ m.hasEntry = true) := by
  obtain ⟨r, d, e⟩ := m
  cases r <;> cases d <;> cases e <;> simp [load_module]

/-- C8: with an authenticated peer, startup appends exactly one registry
slot per received module descriptor in arrival order (registry length =
batch length); a slot is populated iff the descriptor named a regular
file, loaded, and exposed the entry symbol — any failure degrades that
slot to empty without aborting; the single status-0 acknowledgment is
written only after the whole registry is built. -/
theorem zygiskd_startup_registry (uid : Nat) (sv : Bool) (fds : List ModuleFd)
    (h0 : uid = 0) (h1 : sv = true) :
    zygiskd_startup uid sv fds = some (fds.map load_module, 0) ∧
    (fds.map load_module).length = fds.length ∧
    ∀ i (hi : i < fds.length),
      ((fds.map load_module).getD i false = true ↔
        ((fds.get ⟨i, hi⟩).isReg = true ∧ (fds.get ⟨i, hi⟩).dlopenOk = true ∧
          (fds.get ⟨i, hi⟩).hasEntry = true)) := by
  refine ⟨?_, by simp, ?_⟩
  · rw [zygiskd_startup, if_neg]
    simp [h0, h1]
  · intro i hi
    have hlt : i < (fds.map load_module).length := by simpa using hi
    rw [List.getD_eq_getElem (fds.map load_module) false hlt, List.getElem_map]
    simpa using load_module_eq_true_iff fds[i]

/-- Witness for C8: one good module and three degraded ones (not regular,
dlopen failure, missing symbol) produce a four-slot registry and ack 0. -/
theorem zygiskd_startup_registry_witness :
    zygiskd_startup 0 true
        [⟨true, true, true⟩, ⟨false, true, true⟩, ⟨true, false, true⟩,
         ⟨true, true, false⟩] =
      some ([true, false, false, false], 0) ∧
    ([⟨true, true, true⟩, ⟨false, true, true⟩, ⟨true, false, true⟩,
        (⟨true, true, false⟩ : ModuleFd)].map load_module).getD 2 false = false := by
  constructor
  · exact (zygiskd_startup_registry 0 true _ rfl rfl).1
  · have h := (zygiskd_startup_registry 0 true
        [⟨true, true, true⟩, ⟨false, true, true⟩, ⟨true, false, true⟩,
         ⟨true, true, false⟩] rfl rfl).2.2 2 (by decide)
    rcases hval : ([⟨true, true, true⟩, ⟨false, true, true⟩, ⟨true, false, true⟩,
        (⟨true, true, false⟩ : ModuleFd)].map load_module).getD 2 false with - | -
    · rfl
    · rw [hval] at h
      exact absurd (h.mp rfl).2.1 (by decide)

/-- C9: zygiskd exits before building the registry and sends nothing on
the control connection iff the invoking peer fails the authentication
gate (non-root uid or invalid socket); only when both checks pass does it
proceed to registry construction and the acknowledgment. -/
theorem zygiskd_auth_gate (uid : Nat) (sv : Bool) (fds : List ModuleFd) :
    zygiskd_startup uid sv fds = none ↔ (uid ≠ 0 ∨ sv = false) := by
  rw [zygiskd_startup]
  by_cases h : uid ≠ 0 ∨ sv = false
  · simp [h]
  · simp [h]

/-- Counterexample to C1 as stated: on a concrete successful SETUP
exchange the trace is `readInt 0, writeInt len, sendBytes len, recvFd,
readStr` — the loader payload is written by the process to the daemon, so
the claimed shape (loader length and bytes received from the daemon) does
not hold. -/
theorem setup_loader_direction_counterexample :
    ¬ ClaimedSetupExchange
        (app_process_setup 12 "/h".toList "MAGISKTMP".toList []
          ⟨3, 0, 5, "/data/x".toList, false⟩).1 := by
  rintro ⟨n, fd, p, h⟩
  have htr : (app_process_setup 12 "/h".toList "MAGISKTMP".toList []
      ⟨3, 0, 5, "/data/x".toList, false⟩).1 =
      [.readInt 0, .writeInt 12, .sendBytes 12, .recvFd 5,
       .readStr "/data/x".toList] := by decide
  rw [htr] at h
  simp at h

/-- C1 (amended): on a SETUP request answered with status 0 and a
successful descriptor receive, the exchange is: status read, then a
length-prefixed loader payload sent by the process to the daemon, then
one passed descriptor for the real target binary received by the process,
then a length-prefixed private runtime directory path string read by the
process, in that order. -/
theorem setup_success_exchange (ldSize : Nat) (hijack tmpName : List Char)
    (env0 : List (List Char)) (c : SetupConn)
    (hs : 0 ≤ c.socket) (h0 : c.status = 0) (hfd : 0 ≤ c.appProcFd) :
    (app_process_setup ldSize hijack tmpName env0 c).1 =
      [.readInt 0, .writeInt ldSize, .sendBytes ldSize,
       .recvFd c.appProcFd, .readStr c.runtimeDir] := by
  rw [app_process_setup, if_neg (by omega), if_neg (by simp [h0]),
    if_neg (by omega)]
  rw [h0]

/-- Witness for the amended C1 at a concrete successful connection. -/
theorem setup_success_exchange_witness :
    (app_process_setup 16 "/hijack.so".toList "MAGISKTMP".toList []
        ⟨4, 0, 7, "/dev/zygisk".toList, false⟩).1 =
      [.readInt 0, .writeInt 16, .sendBytes 16, .recvFd 7,
       .readStr "/dev/zygisk".toList] :=
  setup_success_exchange 16 _ _ _ _ (by decide) rfl (by decide)

/-- C6: with a valid client descriptor, the passthrough helper writes
status 1 to the client and sends no descriptor when the daemon connection
fails or the daemon answers nonzero to the PASSTHROUGH request (request
code then bitness selector); on status 0 it writes status 0 to the
client, then receives one descriptor from the daemon and relays that same
descriptor to the client. -/
theorem passthrough_behavior (ptCode is64 : Int) (c : PassthroughConn)
    (hc : c.clientValid = true) :
    ((c.magiskd < 0 →
        zygisk_passthrough ptCode is64 c = ([], [.writeInt 1])) ∧
     (0 ≤ c.magiskd → c.status ≠ 0 →
        zygisk_passthrough ptCode is64 c =
          ([.writeInt ptCode, .writeInt is64, .readInt c.status],
           [.writeInt 1])) ∧
     (0 ≤ c.magiskd → c.status = 0 →
        zygisk_passthrough ptCode is64 c =
          ([.writeInt ptCode, .writeInt is64, .readInt 0,
            .recvFd c.realAppFd],
           [.writeInt 0, .sendFd c.realAppFd]))) := by
  refine ⟨?_, ?_, ?_⟩
  · intro h
    rw [zygisk_passthrough, if_neg (by simp [hc]), if_pos h]
  · intro h1 h2
    rw [zygisk_passthrough, if_neg (by simp [hc]), if_neg (by omega),
      if_pos h2]
  · intro h1 h2
    rw [zygisk_passthrough, if_neg (by simp [hc]), if_neg (by omega),
      if_neg (by simp [h2])]
    rw [h2]

/-- Witness for C6: concrete failure (status 1) and success (status 0,
descriptor 9 relayed) runs. -/
theorem passthrough_behavior_witness :
    zygisk_passthrough 5 1 ⟨true, 4, 1, 9⟩ =
      ([.writeInt 5, .writeInt 1, .readInt 1], [.writeInt 1]) ∧
    zygisk_passthrough 5 1 ⟨true, 4, 0, 9⟩ =
      ([.writeInt 5, .writeInt 1, .readInt 0, .recvFd 9],
       [.writeInt 0, .sendFd 9]) :=
  ⟨(passthrough_behavior 5 1 ⟨true, 4, 1, 9⟩ rfl).2.1 (by decide) (by decide),
   (passthrough_behavior 5 1 ⟨true, 4, 0, 9⟩ rfl).2.2 (by decide) rfl⟩

/-- C7: when the SETUP connection fails, the daemon refuses with a nonzero
status, or the descriptor receive fails, the pool-manager branch performs
no environment mutation and — whether or not a private-mount overlay was
present to detach — re-executes its own on-disk image with the original
environment. -/
theorem setup_fallback_no_mutation (ldSize : Nat) (hijack tmpName : List Char)
    (env0 : List (List Char)) (c : SetupConn)
    (h : c.socket < 0 ∨ c.status ≠ 0 ∨ c.appProcFd < 0) :
    ∀ b : Bool,
      (app_process_setup ldSize hijack tmpName env0
        { c with umountFails := b }).2 = .selfReexec env0 := by
  intro b
  rw [app_process_setup]
  by_cases h1 : c.socket < 0
  · rw [if_pos (by simpa using h1)]
  · rw [if_neg (by simpa using h1)]
    by_cases h2 : c.status ≠ 0
    · rw [if_pos (by simpa using h2)]
    · rw [if_neg (by simpa using h2)]
      have h3 : c.appProcFd < 0 := by
        rcases h with h | h | h
        · exact absurd h h1
        · exact absurd h h2
        · exact h
      rw [if_pos (by simpa using h3)]

/-- Witness for C7: a refused SETUP (status 1) falls back to self re-exec
with the original environment untouched. -/
theorem setup_fallback_no_mutation_witness :
    (app_process_setup 12 "/h".toList "MAGISKTMP".toList ["A=1".toList]
        ⟨3, 1, 5, [], true⟩).2 = .selfReexec ["A=1".toList] :=
  setup_fallback_no_mutation 12 "/h".toList "MAGISKTMP".toList ["A=1".toList]
    ⟨3, 1, 5, [], true⟩ (Or.inr (Or.inl (by decide))) true

/-- C10: `LD_PRELOAD` is not on the deny list, and on the successful SETUP
path the `LD_PRELOAD` entry installed before sanitization (existing value
with the hijack path appended, or the hijack path alone) survives
sanitization into the environment passed to the final image replacement.
The side conditions say the runtime-directory variable has a different,
`'='`-free name and the installed entry respects the kernel length
bound. -/
theorem ld_preload_survives (ldSize : Nat) (hijack tmpName : List Char)
    (env0 : List (List Char)) (c : SetupConn)
    (hs : 0 ≤ c.socket) (h0 : c.status = 0) (hfd : 0 ≤ c.appProcFd)
    (hlen : (ldPreloadName ++ '=' :: ld_preload_value env0 hijack).length <
      MAX_ENV_LEN)
    (ht1 : tmpName ≠ ldPreloadName) (ht2 : '=' ∉ tmpName) :
    ldPreloadName ∉ UNSAFE_VARIABLE_NAMES ∧
    ∃ env',
      (app_process_setup ldSize hijack tmpName env0 c).2 =
        .fexecve c.appProcFd env' ∧
      (ldPreloadName ++ '=' :: ld_preload_value env0 hijack) ∈ env' := by
  refine ⟨by decide, ?_⟩
  rw [app_process_setup, if_neg (by omega), if_neg (by simp [h0]),
    if_neg (by omega)]
  refine ⟨_, rfl, ?_⟩
  set pv := ld_preload_value env0 hijack with hpv
  have hnoeq : '=' ∉ ldPreloadName := by decide
  have hmem1 : (ldPreloadName ++ '=' :: pv) ∈
      setenv_model env0 ldPreloadName pv := setenv_mem env0 ldPreloadName pv
  have hnm : env_match (ldPreloadName ++ '=' :: pv) tmpName = none := by
    rcases hm : env_match (ldPreloadName ++ '=' :: pv) tmpName with - | v
    · rfl
    · exfalso
      have := (env_match_eq_some _ tmpName v).mp hm
      exact ht1 (entry_names_eq tmpName ldPreloadName v pv ht2 hnoeq this.symm)
  have hmem2 : (ldPreloadName ++ '=' :: pv) ∈
      setenv_model (setenv_model env0 ldPreloadName pv) tmpName c.runtimeDir :=
    setenv_mem_of_no_match _ _ _ _ hmem1 hnm
  have hin : '=' ∈ ldPreloadName ++ '=' :: pv := by simp
  have hvalid : is_valid_environment_variable (ldPreloadName ++ '=' :: pv) = true := by
    rw [is_valid_iff]
    refine ⟨hlen, ?_, hin⟩
    intro hhead
    have : (ldPreloadName ++ '=' :: pv).head? = some 'L' := rfl
    rw [this] at hhead
    cases hhead
  have hsafe : is_unsafe_environment_variable (ldPreloadName ++ '=' :: pv) = false := by
    rcases hu : is_unsafe_environment_variable (ldPreloadName ++ '=' :: pv) with - | -
    · rfl
    · exfalso
      have := (is_unsafe_iff_name _ hin).mp hu
      rw [env_name_append ldPreloadName pv hnoeq] at this
      exact absurd this (by decide)
  rw [sanitize_eq_filter, List.mem_filter]
  exact ⟨hmem2, by simp [hvalid, hsafe]⟩

/-- Witness for C10 at a concrete successful connection with empty
initial environment. -/
theorem ld_preload_survives_witness :
    ldPreloadName ∉ UNSAFE_VARIABLE_NAMES ∧
    ∃ env',
      (app_process_setup 12 "/h".toList "MAGISKTMP".toList []
        ⟨3, 0, 5, "/data/x".toList, false⟩).2 =
        .fexecve 5 env' ∧
      (ldPreloadName ++ '=' :: ld_preload_value [] "/h".toList) ∈ env' :=
  ld_preload_survives 12 "/h".toList "MAGISKTMP".toList []
    ⟨3, 0, 5, "/data/x".toList, false⟩ (by decide) rfl (by decide)
    (by decide) (by decide) (by decide)

end Zygisk
